import Mathlib

/-!
Shallow embedding of the watermark-removal job pipeline
(`src/server/routes.ts`, first/current copy, and the keyframe-aware
in-memory store `src/unnamed/part_004`), with theorems settling the
frozen claims about the specification.

JavaScript numbers are modelled as rationals (`Rat`), `Math.round` as
`jsRound` (floor of x + 1/2, which is ECMAScript `Math.round` on exact
values), JS `Map`s as association lists preserving insertion order, and
fallible / asynchronous code as explicit outcome values.
-/

/-- ECMAScript `Math.round` on an exact rational: floor of `q + 1/2`
(rounds halves toward positive infinity). Integer-valued result. -/
def jsRoundZ (q : Rat) : Int := ⌊q + 1/2⌋

/-- `Math.round` returned back into the rational number line. -/
def jsRound (q : Rat) : Rat := (jsRoundZ q : Rat)

/-- Two-digit zero-padded rendering of a natural number below 100,
used for the fractional part of `toFixed(2)`. -/
def pad2 (n : Nat) : String := if n < 10 then "0" ++ toString n else toString n

/-- ECMAScript `Number.prototype.toFixed(2)` on an exact rational:
the sign is split off first, then the magnitude is rounded to the nearest
multiple of 1/100 with ties going to the larger candidate. -/
def toFixed2 (q : Rat) : String :=
  if q < 0 then
    "-" ++ (toString ((⌊-q * 100 + 1/2⌋).toNat / 100) ++ "." ++ pad2 ((⌊-q * 100 + 1/2⌋).toNat % 100))
  else
    toString ((⌊q * 100 + 1/2⌋).toNat / 100) ++ "." ++ pad2 ((⌊q * 100 + 1/2⌋).toNat % 100)

/-- Rendering of an integer-valued rational the way a JS template literal
prints it (`5`, not `5/1`); non-integer values keep Lean's `num/den` form,
a corner the pipeline never produces for clamped coordinates. -/
def numStr (q : Rat) : String := if q.den = 1 then toString q.num else toString q

/-- Job status union from `src/shared/schema.ts`:
`"uploading" | "processing" | "complete" | "error"`. -/
inductive JobStatus where
  | uploading
  | processing
  | complete
  | error
deriving DecidableEq, Repr

/-- The `VideoJob` record from `src/shared/schema.ts` (`videoJobs` table /
`MemStorage` value). `createdAt` is modelled as a natural-number tick. -/
structure VideoJob where
  id : String
  originalFilename : String
  originalPath : String
  processedPath : Option String
  fileSize : Int
  format : String
  status : JobStatus
  progress : Int
  errorMessage : Option String
  createdAt : Nat
deriving DecidableEq, Repr

/-- Insert shape for `createVideoJob` (schema's `InsertVideoJob`). -/
structure InsertVideoJob where
  originalFilename : String
  originalPath : String
  fileSize : Int
  format : String
deriving DecidableEq, Repr

/-- The `WatermarkKeyframe` record from `src/shared/schema.ts`. -/
structure WatermarkKeyframe where
  id : String
  jobId : String
  startTime : Rat
  endTime : Rat
  x : Rat
  y : Rat
  width : Rat
  height : Rat
deriving DecidableEq, Repr

/-- A runtime `Partial<InsertKeyframe>` object as `updateKeyframe` receives
it: every field optional. A plain JS object spread can also carry `id` and
`jobId` properties, which the source guards against, so both appear here. -/
structure KeyframePatch where
  id : Option String := none
  jobId : Option String := none
  startTime : Option Rat := none
  endTime : Option Rat := none
  x : Option Rat := none
  y : Option Rat := none
  width : Option Rat := none
  height : Option Rat := none
deriving DecidableEq, Repr

/-- JS `Map` modelled as an association list in insertion order
(ECMAScript `Map`s iterate in insertion order). -/
abbrev MapL (V : Type) : Type := List (String × V)

/-- `Map.prototype.get`. -/
def mapGet {V : Type} (m : MapL V) (k : String) : Option V :=
  (List.find? (fun p => p.1 = k) m).map (fun p => p.2)

/-- `Map.prototype.set`: updates an existing key in place (keeping its
position) or appends a new binding at the end. -/
def mapSet {V : Type} (m : MapL V) (k : String) (v : V) : MapL V :=
  if List.any m (fun p => p.1 = k) then
    List.map (fun p => if p.1 = k then (k, v) else p) m
  else
    m ++ [(k, v)]

/-- `Map.prototype.delete` (the resulting map). -/
def mapDelete {V : Type} (m : MapL V) (k : String) : MapL V :=
  List.filter (fun p => ¬ p.1 = k) m

/-- `Array.from(map.values())`. -/
def mapValues {V : Type} (m : MapL V) : List V := List.map (fun p => p.2) m

/-- The `MemStorage` state from `src/unnamed/part_004` (the `users` map is
untouched by every claim and omitted). -/
structure MemStorage where
  videoJobs : MapL VideoJob
  keyframes : MapL WatermarkKeyframe

/-- The empty store built by the `MemStorage` constructor. -/
def emptyStorage : MemStorage := { videoJobs := [], keyframes := [] }

/-- Body of `createVideoJob` (part_004 lines 53-69); `randomUUID` and the
`new Date()` timestamp are supplied as parameters. -/
def createVideoJob (s : MemStorage) (uuid : String) (now : Nat) (job : InsertVideoJob) :
    MemStorage × VideoJob :=
  let videoJob : VideoJob :=
    { id := uuid
      originalFilename := job.originalFilename
      originalPath := job.originalPath
      processedPath := none
      fileSize := job.fileSize
      format := job.format
      status := JobStatus.uploading
      progress := 0
      errorMessage := none
      createdAt := now }
  ({ s with videoJobs := mapSet s.videoJobs uuid videoJob }, videoJob)

/-- `getVideoJob` (part_004 lines 71-73). -/
def getVideoJob (s : MemStorage) (id : String) : Option VideoJob :=
  mapGet s.videoJobs id

/-- The record-level mutation performed by `updateVideoJobStatus`
(part_004 lines 87-90): set `status`, and set `progress` only when the
optional argument was passed. -/
def applyStatus (j : VideoJob) (status : JobStatus) (progress : Option Int) : VideoJob :=
  { j with status := status, progress := progress.getD j.progress }

/-- `updateVideoJobStatus` (part_004 lines 83-93). -/
def updateVideoJobStatus (s : MemStorage) (id : String) (status : JobStatus)
    (progress : Option Int) : MemStorage × Option VideoJob :=
  match mapGet s.videoJobs id with
  | none => (s, none)
  | some job =>
    let j := applyStatus job status progress
    ({ s with videoJobs := mapSet s.videoJobs id j }, some j)

/-- The record-level mutation performed by `updateVideoJobProcessedPath`
(part_004 line 99). -/
def applyProcessedPath (j : VideoJob) (processedPath : String) : VideoJob :=
  { j with processedPath := some processedPath }

/-- `updateVideoJobProcessedPath` (part_004 lines 95-102). -/
def updateVideoJobProcessedPath (s : MemStorage) (id : String) (processedPath : String) :
    MemStorage × Option VideoJob :=
  match mapGet s.videoJobs id with
  | none => (s, none)
  | some job =>
    let j := applyProcessedPath job processedPath
    ({ s with videoJobs := mapSet s.videoJobs id j }, some j)

/-- The record-level mutation performed by `updateVideoJobError`
(part_004 lines 108-109): force status `error` and store the message. -/
def applyError (j : VideoJob) (errorMessage : String) : VideoJob :=
  { j with status := JobStatus.error, errorMessage := some errorMessage }

/-- `updateVideoJobError` (part_004 lines 104-112). -/
def updateVideoJobError (s : MemStorage) (id : String) (errorMessage : String) :
    MemStorage × Option VideoJob :=
  match mapGet s.videoJobs id with
  | none => (s, none)
  | some job =>
    let j := applyError job errorMessage
    ({ s with videoJobs := mapSet s.videoJobs id j }, some j)

/-- `createKeyframe` (part_004 lines 120-134), uuid supplied. -/
def createKeyframe (s : MemStorage) (uuid : String) (jobId : String)
    (startTime endTime x y width height : Rat) : MemStorage × WatermarkKeyframe :=
  let kf : WatermarkKeyframe :=
    { id := uuid, jobId := jobId, startTime := startTime, endTime := endTime
      x := x, y := y, width := width, height := height }
  ({ s with keyframes := mapSet s.keyframes uuid kf }, kf)

/-- `getKeyframesForJob` (part_004 lines 136-140): values filtered by
`jobId`, sorted by `startTime` (`.sort((a,b) => a.startTime - b.startTime)`
modelled by a stable insertion sort on the same key). -/
def getKeyframesForJob (s : MemStorage) (jobId : String) : List WatermarkKeyframe :=
  List.insertionSort (fun a b => a.startTime ≤ b.startTime)
    (List.filter (fun kf => kf.jobId = jobId) (mapValues s.keyframes))

/-- `updateKeyframe` (part_004 lines 142-154): object spread
`{...keyframe, ...updates, id: keyframe.id, jobId: keyframe.jobId}` — every
field present in the patch wins over the stored one, and then `id` and
`jobId` are forced back to the stored record's values, making any `id` /
`jobId` carried by the patch inert. -/
def updateKeyframe (s : MemStorage) (id : String) (updates : KeyframePatch) :
    MemStorage × Option WatermarkKeyframe :=
  match mapGet s.keyframes id with
  | none => (s, none)
  | some keyframe =>
    let updated : WatermarkKeyframe :=
      { id := keyframe.id
        jobId := keyframe.jobId
        startTime := updates.startTime.getD keyframe.startTime
        endTime := updates.endTime.getD keyframe.endTime
        x := updates.x.getD keyframe.x
        y := updates.y.getD keyframe.y
        width := updates.width.getD keyframe.width
        height := updates.height.getD keyframe.height }
    ({ s with keyframes := mapSet s.keyframes id updated }, some updated)

/-- `deleteKeyframe` (part_004 lines 156-158), resulting store. -/
def deleteKeyframe (s : MemStorage) (id : String) : MemStorage :=
  { s with keyframes := mapDelete s.keyframes id }

/-- `deleteKeyframesForJob` (part_004 lines 160-169), resulting store. -/
def deleteKeyframesForJob (s : MemStorage) (jobId : String) : MemStorage :=
  { s with keyframes := List.filter (fun p => ¬ p.2.jobId = jobId) s.keyframes }

/-- A watermark segment (`WatermarkSegment` interface, routes.ts lines 72-79).
The source field `end` is a Lean keyword and is written `«end»`. -/
structure Segment where
  start : Rat
  «end» : Rat
  x : Rat
  y : Rat
  w : Rat
  h : Rat
deriving DecidableEq, Repr

/-- `validateAndClampSegment` (routes.ts lines 128-146). The dimension
checks mirror JS truthiness: an absent or zero `videoWidth`/`videoHeight`
disables the corresponding clamp. -/
def validateAndClampSegment (seg : Segment) (videoWidth videoHeight : Option Rat) :
    Option Segment :=
  let x := max 0 (jsRound seg.x)
  let y := max 0 (jsRound seg.y)
  let w := jsRound seg.w
  let h := jsRound seg.h
  let w1 :=
    match videoWidth with
    | some vw => if vw ≠ 0 ∧ x + w > vw then vw - x else w
    | none => w
  let h1 :=
    match videoHeight with
    | some vh => if vh ≠ 0 ∧ y + h > vh then vh - y else h
    | none => h
  if w1 < 10 ∨ h1 < 10 ∨ x < 0 ∨ y < 0 then none
  else some { seg with x := x, y := y, w := w1, h := h1 }

/-- The template literal `delogo=x=${x}:y=${y}:w=${w}:h=${h}:show=0`
(routes.ts lines 163 and 207). -/
def delogoPlain (x y w h : Rat) : String :=
  "delogo=x=" ++ numStr x ++ ":y=" ++ numStr y ++ ":w=" ++ numStr w ++ ":h=" ++ numStr h
    ++ ":show=0"

/-- The time-gated template literal of routes.ts line 174:
the plain operation followed by
`:enable='between(t,start.toFixed(2),end.toFixed(2))'`. -/
def delogoGated (seg : Segment) : String :=
  delogoPlain seg.x seg.y seg.w seg.h
    ++ ":enable=\x27between(t," ++ toFixed2 seg.start ++ "," ++ toFixed2 seg.«end» ++ ")\x27"

/-- The fixed fallback operation string (routes.ts lines 150, 158, 210). -/
def fallbackDelogo : String := "delogo=x=10:y=10:w=200:h=50:show=0"

/-- The `validSegments` intermediate of `buildDynamicDelogoFilter`
(routes.ts lines 153-155): clamp every segment and drop the `null`s
(`.map(...).filter(seg => seg !== null)` is `filterMap`). -/
def validSegmentsOf (segments : List Segment) (videoWidth videoHeight : Option Rat) :
    List Segment :=
  List.filterMap (fun seg => validateAndClampSegment seg videoWidth videoHeight) segments

/-- `buildDynamicDelogoFilter` (routes.ts lines 148-179). `duration` is a
parameter of the source function but unused by its body. -/
def buildDynamicDelogoFilter (segments : List Segment) (duration : Rat)
    (videoWidth videoHeight : Option Rat) : String :=
  if segments.isEmpty then fallbackDelogo
  else if (validSegmentsOf segments videoWidth videoHeight).isEmpty then fallbackDelogo
  else
    match validSegmentsOf segments videoWidth videoHeight with
    | [seg] => delogoPlain seg.x seg.y seg.w seg.h
    | _ =>
      String.intercalate ","
        (List.map delogoGated (validSegmentsOf segments videoWidth videoHeight))

/-- `default_position` shape in `DetectionResult` (routes.ts line 86). -/
structure DetRect where
  x : Rat
  y : Rat
  w : Rat
  h : Rat
deriving DecidableEq, Repr

/-- `video_info` shape in `DetectionResult` (routes.ts line 87). -/
structure VideoInfoR where
  width : Rat
  height : Rat
  duration : Rat
  fps : Rat
deriving DecidableEq, Repr

/-- The `DetectionResult` interface (routes.ts lines 81-88); every field is
optional exactly as in the source. -/
structure DetectionResult where
  success : Option Bool := none
  error : Option String := none
  watermark_detected : Option Bool := none
  segments : Option (List Segment) := none
  default_position : Option DetRect := none
  video_info : Option VideoInfoR := none
deriving DecidableEq, Repr

/-- How the spawned `python3 detect_watermark.py` run terminates: a `close`
event with an exit code and the accumulated stdout/stderr, or an `error`
event (spawn failure). -/
inductive PyOutcome where
  | exited (code : Int) (stdout : String) (stderr : String)
  | spawnFailed
deriving DecidableEq, Repr

/-- `detectWatermarkPositions` (routes.ts lines 90-126) with `JSON.parse`
abstracted as a `parseJson` oracle (`none` models a parse exception). The
promise always resolves: every failure is absorbed into a result value. -/
def detectWatermarkPositions (parseJson : String → Option DetectionResult)
    (out : PyOutcome) : DetectionResult :=
  match out with
  | PyOutcome.exited code stdout stderr =>
    if code = 0 ∧ stdout ≠ "" then
      match parseJson stdout with
      | some result => result
      | none => { success := some false, error := some "Failed to parse detection result" }
    else
      { success := some false
        error := some (if stderr ≠ "" then stderr else "Detection failed") }
  | PyOutcome.spawnFailed =>
      { success := some false, error := some "Detection script not available" }

/-- The video-filter selection of routes.ts lines 196-211, with JS
truthiness (`detection.success && detection.watermark_detected && ...`)
made explicit; `video_info?.duration || 60` treats 0 as absent. -/
def chooseVideoFilter (detection : DetectionResult) : String :=
  if (detection.success.getD false) ∧ (detection.watermark_detected.getD false) ∧
      detection.segments.isSome ∧ 0 < (detection.segments.getD []).length then
    let duration :=
      match detection.video_info with
      | some vi => if vi.duration ≠ 0 then vi.duration else 60
      | none => 60
    buildDynamicDelogoFilter (detection.segments.getD []) duration
      (detection.video_info.map (fun vi => vi.width))
      (detection.video_info.map (fun vi => vi.height))
  else if (detection.success.getD false) ∧ detection.default_position.isSome then
    let pos := detection.default_position.getD { x := 0, y := 0, w := 0, h := 0 }
    delogoPlain pos.x pos.y pos.w pos.h
  else
    fallbackDelogo

/-- `HH:MM:SS` to seconds, as parsed from the ffmpeg diagnostic stream
(routes.ts lines 235-238 and 243-246). -/
def hmsToSeconds (h m s : Nat) : Nat := h * 3600 + m * 60 + s

/-- The progress pushed on each `time=` observation (routes.ts line 247):
`10 + Math.min(Math.round((currentTime / duration) * 89), 89)`. -/
def ffmpegProgress (currentTime duration : Nat) : Int :=
  10 + min (jsRoundZ ((currentTime : Rat) / (duration : Rat) * 89)) 89

/-- Written from the claim's words, for comparison with `ffmpegProgress`:
base 10 plus `round(min(elapsed/duration, 1) * range)` where the range is
the remaining 90% of the bar, the whole capped at 99. -/
def claimProgressFormula (currentTime duration : Nat) : Int :=
  min (10 + jsRoundZ (min ((currentTime : Rat) / (duration : Rat)) 1 * 90)) 99

/-- How the spawned ffmpeg process terminates: a `close` event with an exit
code, or an `error` event (binary missing / failed to start). -/
inductive FfmpegOutcome where
  | exited (code : Int)
  | spawnFailed
deriving DecidableEq, Repr

/-- Resolution of one `processWatermarkRemoval` attempt: a synchronous
throw, the promise resolving, or the promise rejecting. -/
inductive ProcOutcome where
  | threw (msg : String)
  | resolved
  | rejected (msg : String)
deriving DecidableEq, Repr

/-- The environment one processing attempt observes: whether the source
file exists, what the detection adapter resolves to, and how the engine
process ends. -/
structure ProcEnv where
  fileExists : Bool
  detection : DetectionResult
  ffmpeg : FfmpegOutcome

/-- Result of one processing attempt: the final store plus observables for
whether detection ran, whether the engine was spawned, and which filter
string was handed to it. -/
structure ProcResult where
  store : MemStorage
  detectionRan : Bool
  ffmpegSpawned : Bool
  videoFilter : Option String
  outcome : ProcOutcome

/-- `path.basename`, modelled on forward-slash paths. -/
def pathBasename (p : String) : String := (p.splitOn "/").getLastD p

/-- `path.join(PROCESSED_DIR, "processed-" + basename(inputPath))`
(routes.ts lines 183-184), with `PROCESSED_DIR` rendered as `processed/`. -/
def outputPathFor (inputPath : String) : String :=
  "processed/" ++ ("processed-" ++ pathBasename inputPath)

/-- `processWatermarkRemoval` (routes.ts lines 181-269, the current copy):
missing source file throws after recording the error; otherwise status
(processing, 5), detection, filter selection, status (processing, 10), and
the engine phase whose outcome decides complete/error. The per-chunk
progress updates are modelled separately by `ffmpegProgress` and the
lifecycle relation. -/
def processWatermarkRemoval (env : ProcEnv) (s : MemStorage) (job : VideoJob) : ProcResult :=
  let inputPath := job.originalPath
  let outputPath := outputPathFor inputPath
  if ¬ env.fileExists then
    { store := (updateVideoJobError s job.id "Source file not found").1
      detectionRan := false
      ffmpegSpawned := false
      videoFilter := none
      outcome := ProcOutcome.threw "Source file not found" }
  else
    let s1 := (updateVideoJobStatus s job.id JobStatus.processing (some 5)).1
    let videoFilter := chooseVideoFilter env.detection
    let s2 := (updateVideoJobStatus s1 job.id JobStatus.processing (some 10)).1
    match env.ffmpeg with
    | FfmpegOutcome.exited code =>
      if code = 0 then
        let s3 := (updateVideoJobProcessedPath s2 job.id outputPath).1
        let s4 := (updateVideoJobStatus s3 job.id JobStatus.complete (some 100)).1
        { store := s4, detectionRan := true, ffmpegSpawned := true
          videoFilter := some videoFilter, outcome := ProcOutcome.resolved }
      else
        { store := (updateVideoJobError s2 job.id "Processing failed. Please try again.").1
          detectionRan := true, ffmpegSpawned := true
          videoFilter := some videoFilter
          outcome := ProcOutcome.rejected "FFmpeg processing failed" }
    | FfmpegOutcome.spawnFailed =>
        { store := (updateVideoJobError s2 job.id "FFmpeg not available or failed to start").1
          detectionRan := true, ffmpegSpawned := true
          videoFilter := some videoFilter
          outcome := ProcOutcome.rejected "ffmpeg spawn error" }

/-- `MAX_CONCURRENT_JOBS` (routes.ts line 12). -/
def MAX_CONCURRENT_JOBS : Nat := 2

/-- Scheduler state: `activeJobs` is the source's counter enriched to the
list of currently admitted jobs in admission order (its length is the
counter), `queue` is `processingQueue`; `admLog` and `enqLog` are history
variables recording every admission and every `queueJob` call in order. -/
structure Sched where
  activeJobs : List VideoJob
  queue : List VideoJob
  admLog : List VideoJob
  enqLog : List VideoJob
deriving DecidableEq, Repr

/-- `processNextInQueue` (routes.ts lines 48-65): return unless a slot is
free and the queue is non-empty; otherwise shift the head of the queue and
admit it (hand it to `processWatermarkRemoval` asynchronously). -/
def processNextInQueue (s : Sched) : Sched :=
  if MAX_CONCURRENT_JOBS ≤ s.activeJobs.length ∨ s.queue.isEmpty then s
  else
    match s.queue with
    | [] => s
    | job :: rest =>
      { s with activeJobs := s.activeJobs ++ [job], queue := rest, admLog := s.admLog ++ [job] }

/-- `queueJob` (routes.ts lines 67-70): push at the tail, then attempt
admission. -/
def queueJob (s : Sched) (job : VideoJob) : Sched :=
  processNextInQueue { s with queue := s.queue ++ [job], enqLog := s.enqLog ++ [job] }

/-- The `.finally` continuation of an admitted job's processing routine
(routes.ts lines 61-64): release the slot and re-attempt admission. A
finish event for a job that is not admitted is a no-op. -/
def finishJob (s : Sched) (job : VideoJob) : Sched :=
  if job ∈ s.activeJobs then
    processNextInQueue { s with activeJobs := s.activeJobs.erase job }
  else s

/-- The two events that drive the scheduler: an enqueue (upload or retry)
and the completion — success or failure — of an admitted job's routine. -/
inductive SchedEvent where
  | enqueue (job : VideoJob)
  | finish (job : VideoJob)
deriving DecidableEq, Repr

/-- One scheduler event step. -/
def applySchedEvent (s : Sched) (e : SchedEvent) : Sched :=
  match e with
  | SchedEvent.enqueue job => queueJob s job
  | SchedEvent.finish job => finishJob s job

/-- The initial scheduler state (`activeJobs = 0`, empty queue). -/
def initSched : Sched := { activeJobs := [], queue := [], admLog := [], enqLog := [] }

/-- The scheduler state after an arbitrary interleaving of events. -/
def runSched (events : List SchedEvent) : Sched :=
  List.foldl applySchedEvent initSched events

/-- Combined server state seen by the route handlers. -/
structure AppState where
  store : MemStorage
  sched : Sched

/-- Response of the retry endpoint: 404, 400, or the 200 payload
(`storage.getVideoJob(job.id)` re-read after the update). -/
inductive RetryResult where
  | notFound
  | badRequest
  | ok (job : Option VideoJob)
deriving DecidableEq, Repr

/-- The `POST /api/jobs/:id/retry` handler (routes.ts lines 368-388):
404 when the job is unknown, 400 when its status is not `error`, otherwise
`updateVideoJobStatus(id, "uploading", 0)` followed by `queueJob(job)`.
The enqueued object is the very record the Map holds, already mutated by
the status update, hence `upd.2`. -/
def retryRoute (st : AppState) (id : String) : AppState × RetryResult :=
  match getVideoJob st.store id with
  | none => (st, RetryResult.notFound)
  | some job =>
    if ¬ job.status = JobStatus.error then (st, RetryResult.badRequest)
    else
      let upd := updateVideoJobStatus st.store id JobStatus.uploading (some 0)
      let j1 := upd.2.getD job
      let sched1 := queueJob st.sched j1
      ({ store := upd.1, sched := sched1 }, RetryResult.ok (getVideoJob upd.1 id))

/-- One job record's transitions, one constructor per store-update call
site of the lifecycle code in routes.ts (upload handler line 291; missing
source line 187; admission line 191; post-plan line 214; progress callback
lines 247-248; success lines 254-255 — the two awaited updates of one
close-handler turn; engine failure line 259; spawn failure line 265; retry
line 378, guarded exactly as the route guards it). -/
inductive LifecycleStep : VideoJob → VideoJob → Prop
  | uploadDone (j : VideoJob) :
      LifecycleStep j (applyStatus j JobStatus.uploading (some 100))
  | srcMissing (j : VideoJob) :
      LifecycleStep j (applyError j "Source file not found")
  | startProc (j : VideoJob) :
      LifecycleStep j (applyStatus j JobStatus.processing (some 5))
  | planBuilt (j : VideoJob) :
      LifecycleStep j (applyStatus j JobStatus.processing (some 10))
  | progress (j : VideoJob) (currentTime duration : Nat) (h : 0 < duration) :
      LifecycleStep j (applyStatus j JobStatus.processing (some (ffmpegProgress currentTime duration)))
  | succeed (j : VideoJob) (outPath : String) :
      LifecycleStep j (applyStatus (applyProcessedPath j outPath) JobStatus.complete (some 100))
  | failEngine (j : VideoJob) :
      LifecycleStep j (applyError j "Processing failed. Please try again.")
  | failSpawn (j : VideoJob) :
      LifecycleStep j (applyError j "FFmpeg not available or failed to start")
  | retry (j : VideoJob) (h : j.status = JobStatus.error) :
      LifecycleStep j (applyStatus j JobStatus.uploading (some 0))

/-- Job records reachable from a given record by lifecycle steps. -/
def ReachableJob (a b : VideoJob) : Prop := Relation.ReflTransGen LifecycleStep a b

/-- The job record as `createVideoJob` builds it. -/
def createdJob (uuid : String) (now : Nat) (ins : InsertVideoJob) : VideoJob :=
  (createVideoJob emptyStorage uuid now ins).2

/-- Result of the `uploading → processing` admission transition: the
keyframe snapshot, whether the Detection Adapter was invoked, and the
constructed filter plan. -/
structure AdmissionResult where
  snapshot : List WatermarkKeyframe
  detectionInvoked : Bool
  plan : String
deriving DecidableEq, Repr

/-- A keyframe handed to the Filter Plan Builder as a segment. -/
def keyframeToSegment (kf : WatermarkKeyframe) : Segment :=
  { start := kf.startTime, «end» := kf.endTime, x := kf.x, y := kf.y
    w := kf.width, h := kf.height }

/-- Modelled from the spec: the keyframe-aware `uploading → processing`
transition of the Job Lifecycle Controller (spec §4.5: "snapshot current
keyframes for the job; if none exist, invoke Detection Adapter; build the
Filter Plan"). The controller variant that consults manual keyframes is
missing from src/ — `src/server/routes.ts` holds an earlier detection-only
variant, while the keyframe store it relies on (`getKeyframesForJob`,
src/unnamed/part_004) is present and is used here unchanged. The Detection
Adapter's resolved value and the video dimensions are parameters. -/
def startProcessing (s : MemStorage) (job : VideoJob) (detection : DetectionResult)
    (duration : Rat) (videoWidth videoHeight : Option Rat) : AdmissionResult :=
  let kfs := getKeyframesForJob s job.id
  if kfs.isEmpty then
    { snapshot := kfs, detectionInvoked := true, plan := chooseVideoFilter detection }
  else
    { snapshot := kfs, detectionInvoked := false
      plan := buildDynamicDelogoFilter (List.map keyframeToSegment kfs)
        duration videoWidth videoHeight }

theorem find?_map_mapSetFun {V : Type} (m : MapL V) (k : String) (v : V) :
    List.find? (fun p => p.1 = k) (List.map (fun p => if p.1 = k then (k, v) else p) m) =
      Option.map (fun _ => (k, v)) (List.find? (fun p => p.1 = k) m) := by
  induction m with
  | nil => simp
  | cons hd tl ih =>
    by_cases hk : hd.1 = k
    · simp [List.find?_cons, hk]
    · simp [List.find?_cons, hk, ih]

theorem mapGet_mapSet_self {V : Type} (m : MapL V) (k : String) (v : V) :
    mapGet (mapSet m k v) k = some v := by
  unfold mapSet
  by_cases hA : List.any m (fun p => p.1 = k)
  · rw [if_pos hA]
    have hs : (List.find? (fun p : String × V => p.1 = k) m).isSome := by
      rw [List.find?_isSome]
      rcases List.any_eq_true.mp hA with ⟨x, hx, hpx⟩
      exact ⟨x, hx, hpx⟩
    rcases Option.isSome_iff_exists.mp hs with ⟨p, hp⟩
    unfold mapGet
    rw [find?_map_mapSetFun, hp]
    simp
  · rw [if_neg hA]
    have hnone : List.find? (fun p : String × V => p.1 = k) m = none := by
      apply List.find?_eq_none.mpr
      intro x hx
      simp only [decide_eq_true_eq]
      intro hxk
      exact hA (List.any_eq_true.mpr ⟨x, hx, by simpa using hxk⟩)
    unfold mapGet
    rw [List.find?_append, hnone]
    simp

theorem updateVideoJobStatus_found (s : MemStorage) (id : String) (jr : VideoJob)
    (h : mapGet s.videoJobs id = some jr) (st : JobStatus) (p : Option Int) :
    updateVideoJobStatus s id st p =
      ({ s with videoJobs := mapSet s.videoJobs id (applyStatus jr st p) },
        some (applyStatus jr st p)) := by
  simp [updateVideoJobStatus, h]

theorem updateVideoJobProcessedPath_found (s : MemStorage) (id : String) (jr : VideoJob)
    (h : mapGet s.videoJobs id = some jr) (pp : String) :
    updateVideoJobProcessedPath s id pp =
      ({ s with videoJobs := mapSet s.videoJobs id (applyProcessedPath jr pp) },
        some (applyProcessedPath jr pp)) := by
  simp [updateVideoJobProcessedPath, h]

theorem updateVideoJobError_found (s : MemStorage) (id : String) (jr : VideoJob)
    (h : mapGet s.videoJobs id = some jr) (msg : String) :
    updateVideoJobError s id msg =
      ({ s with videoJobs := mapSet s.videoJobs id (applyError jr msg) },
        some (applyError jr msg)) := by
  simp [updateVideoJobError, h]

theorem jsRound_intCast (n : Int) : jsRound ((n : Rat)) = (n : Rat) := by
  have h : jsRoundZ ((n : Rat)) = n := by
    unfold jsRoundZ
    rw [add_comm, Int.floor_add_int]
    norm_num
  simp [jsRound, h]

theorem pad2_length : ∀ m < 100, (pad2 m).length = 2 := by decide

/-- Claim C10: `updateKeyframe` keeps the stored keyframe's `id` and
`jobId` even when the patch carries those fields, fields present in the
patch replace the old values, absent fields keep their previous values,
and updating a non-existent id returns no record and leaves the store
unchanged. -/
theorem updateKeyframe_frame_effect (s : MemStorage) (id : String) (u : KeyframePatch) :
    (mapGet s.keyframes id = none → updateKeyframe s id u = (s, none)) ∧
    (∀ kf, mapGet s.keyframes id = some kf →
      ∃ upd : WatermarkKeyframe,
        updateKeyframe s id u = ({ s with keyframes := mapSet s.keyframes id upd }, some upd) ∧
        upd.id = kf.id ∧
        upd.jobId = kf.jobId ∧
        upd.startTime = u.startTime.getD kf.startTime ∧
        upd.endTime = u.endTime.getD kf.endTime ∧
        upd.x = u.x.getD kf.x ∧
        upd.y = u.y.getD kf.y ∧
        upd.width = u.width.getD kf.width ∧
        upd.height = u.height.getD kf.height) := by
  constructor
  · intro h
    simp [updateKeyframe, h]
  · intro kf h
    refine ⟨{ id := kf.id, jobId := kf.jobId
              startTime := u.startTime.getD kf.startTime
              endTime := u.endTime.getD kf.endTime
              x := u.x.getD kf.x, y := u.y.getD kf.y
              width := u.width.getD kf.width
              height := u.height.getD kf.height },
            ?_, rfl, rfl, rfl, rfl, rfl, rfl, rfl, rfl⟩
    simp [updateKeyframe, h]

/-- Example keyframe used by the C10 witness. -/
def kfEx : WatermarkKeyframe :=
  { id := "k1", jobId := "j1", startTime := 0, endTime := 3, x := 10, y := 10
    width := 50, height := 20 }

/-- Store holding `kfEx`, used by the C10 witness. -/
def kfStoreEx : MemStorage := { videoJobs := [], keyframes := [("k1", kfEx)] }

/-- Patch carrying both a foreign `jobId` and an `id`, used by the C10
witness. -/
def patchEx : KeyframePatch := { id := some "evil", jobId := some "other", x := some 99 }

/-- Witness for C10 at a concrete store, keyframe and patch. -/
theorem updateKeyframe_frame_effect_witness :
    ∃ upd : WatermarkKeyframe,
      updateKeyframe kfStoreEx "k1" patchEx =
        ({ kfStoreEx with keyframes := mapSet kfStoreEx.keyframes "k1" upd }, some upd) ∧
      upd.id = kfEx.id ∧
      upd.jobId = kfEx.jobId ∧
      upd.startTime = patchEx.startTime.getD kfEx.startTime ∧
      upd.endTime = patchEx.endTime.getD kfEx.endTime ∧
      upd.x = patchEx.x.getD kfEx.x ∧
      upd.y = patchEx.y.getD kfEx.y ∧
      upd.width = patchEx.width.getD kfEx.width ∧
      upd.height = patchEx.height.getD kfEx.height :=
  (updateKeyframe_frame_effect kfStoreEx "k1" patchEx).2 kfEx (by decide)

theorem processNextInQueue_enqLog (s : Sched) : (processNextInQueue s).enqLog = s.enqLog := by
  unfold processNextInQueue
  split
  · rfl
  · split <;> rfl

theorem queueJob_enqLog (s : Sched) (j : VideoJob) :
    (queueJob s j).enqLog = s.enqLog ++ [j] := by
  unfold queueJob
  rw [processNextInQueue_enqLog]

/-- Claim C2 (amended): retrying a job whose status is not `error` is
rejected synchronously with no state change; retrying a job in `error`
status sets its status back to `uploading`, resets progress to 0, and
hands the updated record to `queueJob`, which appends it at the tail of
the queue (recorded by the enqueue log) — but the stored error message is
NOT cleared: `updateVideoJobStatus` only touches status and progress. -/
theorem retryRoute_spec (st : AppState) (id : String) (job : VideoJob)
    (hget : getVideoJob st.store id = some job) :
    (¬ job.status = JobStatus.error → retryRoute st id = (st, RetryResult.badRequest)) ∧
    (job.status = JobStatus.error →
      retryRoute st id =
        ({ store := { st.store with
              videoJobs := mapSet st.store.videoJobs id (applyStatus job JobStatus.uploading (some 0)) }
           sched := queueJob st.sched (applyStatus job JobStatus.uploading (some 0)) },
         RetryResult.ok (some (applyStatus job JobStatus.uploading (some 0)))) ∧
      (applyStatus job JobStatus.uploading (some 0)).status = JobStatus.uploading ∧
      (applyStatus job JobStatus.uploading (some 0)).progress = 0 ∧
      (applyStatus job JobStatus.uploading (some 0)).errorMessage = job.errorMessage ∧
      (queueJob st.sched (applyStatus job JobStatus.uploading (some 0))).enqLog =
        st.sched.enqLog ++ [applyStatus job JobStatus.uploading (some 0)]) := by
  constructor
  · intro hne
    simp [retryRoute, hget, hne]
  · intro herr
    have hupd := updateVideoJobStatus_found st.store id job hget JobStatus.uploading (some 0)
    have hget2 : getVideoJob
        { st.store with
          videoJobs := mapSet st.store.videoJobs id (applyStatus job JobStatus.uploading (some 0)) }
        id = some (applyStatus job JobStatus.uploading (some 0)) := by
      simp [getVideoJob, mapGet_mapSet_self]
    refine ⟨?_, rfl, rfl, rfl, queueJob_enqLog _ _⟩
    simp [retryRoute, hget, herr, hupd, hget2]

/-- An errored job record, used to refute the claim that retry clears the
stored error message. -/
def jobErrEx : VideoJob :=
  { id := "j1", originalFilename := "a.mp4", originalPath := "uploads/a.mp4"
    processedPath := none, fileSize := 1000, format := "mp4"
    status := JobStatus.error, progress := 42
    errorMessage := some "Processing failed. Please try again.", createdAt := 0 }

/-- Server state holding `jobErrEx`, used by the C2 counterexample. -/
def retryStEx : AppState :=
  { store := { videoJobs := [("j1", jobErrEx)], keyframes := [] }, sched := initSched }

/-- Counterexample to claim C2 as stated: retrying the errored job `j1`
does reset status and progress, but the resulting record still carries the
old error message — it is not cleared. -/
theorem retryRoute_keeps_errorMessage :
    getVideoJob (retryRoute retryStEx "j1").1.store "j1" =
      some { jobErrEx with status := JobStatus.uploading, progress := 0 } ∧
    ({ jobErrEx with status := JobStatus.uploading, progress := 0 } : VideoJob).status =
      JobStatus.uploading ∧
    ({ jobErrEx with status := JobStatus.uploading, progress := 0 } : VideoJob).errorMessage =
      some "Processing failed. Please try again." := by
  refine ⟨?_, rfl, rfl⟩
  decide

/-- Witness for the amended C2 at the concrete errored state. -/
theorem retryRoute_spec_witness :
    retryRoute retryStEx "j1" =
      ({ store := { retryStEx.store with
            videoJobs := mapSet retryStEx.store.videoJobs "j1"
              (applyStatus jobErrEx JobStatus.uploading (some 0)) }
         sched := queueJob retryStEx.sched (applyStatus jobErrEx JobStatus.uploading (some 0)) },
       RetryResult.ok (some (applyStatus jobErrEx JobStatus.uploading (some 0)))) ∧
    (applyStatus jobErrEx JobStatus.uploading (some 0)).status = JobStatus.uploading ∧
    (applyStatus jobErrEx JobStatus.uploading (some 0)).progress = 0 ∧
    (applyStatus jobErrEx JobStatus.uploading (some 0)).errorMessage = jobErrEx.errorMessage ∧
    (queueJob retryStEx.sched (applyStatus jobErrEx JobStatus.uploading (some 0))).enqLog =
      retryStEx.sched.enqLog ++ [applyStatus jobErrEx JobStatus.uploading (some 0)] :=
  (retryRoute_spec retryStEx "j1" jobErrEx (by decide)).2 (by decide)

/-- Claim C3 (amended): along every sequence of lifecycle transitions from
a freshly created job record, the forward implications hold — a `complete`
record carries an output file reference and an `error` record carries an
error message. (The converses of the claim's iffs fail: see the
counterexample, where a retried record keeps its stale error message in
status `uploading`.) -/
theorem reachable_terminal_fields (uuid : String) (now : Nat) (ins : InsertVideoJob)
    (j : VideoJob) (h : ReachableJob (createdJob uuid now ins) j) :
    (j.status = JobStatus.complete → ¬ j.processedPath = none) ∧
    (j.status = JobStatus.error → ¬ j.errorMessage = none) := by
  induction h with
  | refl =>
    constructor
    · intro hc
      simp [createdJob, createVideoJob, emptyStorage] at hc
    · intro hc
      simp [createdJob, createVideoJob, emptyStorage] at hc
  | tail _ step _ =>
    cases step <;>
      simp [applyStatus, applyError, applyProcessedPath]

/-- Example insert payload for lifecycle traces. -/
def insEx : InsertVideoJob :=
  { originalFilename := "a.mp4", originalPath := "uploads/a.mp4", fileSize := 1000
    format := "mp4" }

/-- The freshly created record for the C3 trace. -/
def j0Ex : VideoJob := createdJob "u1" 0 insEx

/-- The record after the missing-source error step. -/
def jErrSrcEx : VideoJob := applyError j0Ex "Source file not found"

/-- The record after retrying the errored job. -/
def jRetryEx : VideoJob := applyStatus jErrSrcEx JobStatus.uploading (some 0)

/-- Counterexample to claim C3 as stated: the reachable record `jRetryEx`
(create → missing-source error → retry) has status `uploading` yet still
carries an error message, refuting "error message present iff status =
error". -/
theorem reachable_breaks_error_iff :
    ReachableJob j0Ex jRetryEx ∧
    ¬ jRetryEx.status = JobStatus.error ∧
    jRetryEx.errorMessage = some "Source file not found" := by
  refine ⟨?_, by decide, by decide⟩
  exact Relation.ReflTransGen.tail
    (Relation.ReflTransGen.single (LifecycleStep.srcMissing j0Ex))
    (LifecycleStep.retry jErrSrcEx (by decide))

/-- Witness for the amended C3 at the freshly created record. -/
theorem reachable_terminal_fields_witness :
    ((createdJob "u1" 0 insEx).status = JobStatus.complete →
      ¬ (createdJob "u1" 0 insEx).processedPath = none) ∧
    ((createdJob "u1" 0 insEx).status = JobStatus.error →
      ¬ (createdJob "u1" 0 insEx).errorMessage = none) :=
  reachable_terminal_fields "u1" 0 insEx (createdJob "u1" 0 insEx) Relation.ReflTransGen.refl

theorem validateAndClampSegment_int (st en : Rat) (x y w h W H : Int)
    (hx : 0 ≤ x) (hy : 0 ≤ y) (hW : 0 < W) (hH : 0 < H) :
    validateAndClampSegment
      { start := st, «end» := en, x := (x : Rat), y := (y : Rat), w := (w : Rat), h := (h : Rat) }
      (some (W : Rat)) (some (H : Rat)) =
      (if (if W < x + w then W - x else w) < 10 ∨ (if H < y + h then H - y else h) < 10 then
        none
      else
        some { start := st, «end» := en, x := (x : Rat), y := (y : Rat)
               w := ((if W < x + w then W - x else w : Int) : Rat)
               h := ((if H < y + h then H - y else h : Int) : Rat) }) := by
  have hmx : max 0 ((x : Rat)) = (x : Rat) := max_eq_right (by exact_mod_cast hx)
  have hmy : max 0 ((y : Rat)) = (y : Rat) := max_eq_right (by exact_mod_cast hy)
  have hWne : ((W : Rat)) ≠ 0 := by exact_mod_cast hW.ne'
  have hHne : ((H : Rat)) ≠ 0 := by exact_mod_cast hH.ne'
  simp only [validateAndClampSegment, jsRound_intCast, hmx, hmy]
  have hw1 : (if ((W : Rat)) ≠ 0 ∧ (x : Rat) + (w : Rat) > (W : Rat)
        then (W : Rat) - (x : Rat) else (w : Rat))
      = ((if W < x + w then W - x else w : Int) : Rat) := by
    by_cases h1 : W < x + w
    · rw [if_pos ⟨hWne, by exact_mod_cast h1⟩, if_pos h1]
      push_cast
      ring
    · rw [if_neg (fun hc => h1 (by exact_mod_cast hc.2)), if_neg h1]
  have hh1 : (if ((H : Rat)) ≠ 0 ∧ (y : Rat) + (h : Rat) > (H : Rat)
        then (H : Rat) - (y : Rat) else (h : Rat))
      = ((if H < y + h then H - y else h : Int) : Rat) := by
    by_cases h1 : H < y + h
    · rw [if_pos ⟨hHne, by exact_mod_cast h1⟩, if_pos h1]
      push_cast
      ring
    · rw [if_neg (fun hc => h1 (by exact_mod_cast hc.2)), if_neg h1]
  rw [hw1, hh1]
  by_cases h2 : (if W < x + w then W - x else w) < 10 ∨ (if H < y + h then H - y else h) < 10
  · rw [if_pos h2]
    rcases h2 with h2 | h2
    · rw [if_pos (Or.inl (by exact_mod_cast h2))]
    · rw [if_pos (Or.inr (Or.inl (by exact_mod_cast h2)))]
  · rw [if_neg h2]
    push_neg at h2
    rw [if_neg ?_]
    push_neg
    refine ⟨by exact_mod_cast h2.1, by exact_mod_cast h2.2, by exact_mod_cast hx, by exact_mod_cast hy⟩

/-- Claim C5 (amended): for integer-coordinate rectangles with x, y ≥ 0
inside a positive frame — (1) an already-valid rectangle whose width and
height are at least the floor of 10 is returned unchanged; (2) on
overflow, x and y are kept and w/h are shrunk exactly to the frame edge
(x + w' = W, y + h' = H); (3) whenever the (possibly shrunk) width or
height ends below 10 the segment is dropped by returning `none` — a
filtering step, not an error. (As literally stated the claim is false:
see the counterexample, a valid 5×5 rectangle is excluded, not returned.) -/
theorem validateAndClampSegment_spec (st en : Rat) (x y w h W H : Int)
    (hx : 0 ≤ x) (hy : 0 ≤ y) (hW : 0 < W) (hH : 0 < H) :
    (x + w ≤ W → y + h ≤ H → 10 ≤ w → 10 ≤ h →
      validateAndClampSegment
          { start := st, «end» := en, x := (x : Rat), y := (y : Rat), w := (w : Rat), h := (h : Rat) }
          (some (W : Rat)) (some (H : Rat)) =
        some { start := st, «end» := en, x := (x : Rat), y := (y : Rat), w := (w : Rat), h := (h : Rat) }) ∧
    (10 ≤ (if W < x + w then W - x else w) → 10 ≤ (if H < y + h then H - y else h) →
      validateAndClampSegment
          { start := st, «end» := en, x := (x : Rat), y := (y : Rat), w := (w : Rat), h := (h : Rat) }
          (some (W : Rat)) (some (H : Rat)) =
        some { start := st, «end» := en, x := (x : Rat), y := (y : Rat)
               w := ((if W < x + w then W - x else w : Int) : Rat)
               h := ((if H < y + h then H - y else h : Int) : Rat) }) ∧
    ((if W < x + w then W - x else w) < 10 ∨ (if H < y + h then H - y else h) < 10 →
      validateAndClampSegment
          { start := st, «end» := en, x := (x : Rat), y := (y : Rat), w := (w : Rat), h := (h : Rat) }
          (some (W : Rat)) (some (H : Rat)) = none) := by
  refine ⟨?_, ?_, ?_⟩
  · intro h1 h2 h3 h4
    rw [validateAndClampSegment_int st en x y w h W H hx hy hW hH]
    rw [if_neg (by omega)]
    rw [if_neg (by omega), if_neg (by omega)]
  · intro h1 h2
    rw [validateAndClampSegment_int st en x y w h W H hx hy hW hH]
    rw [if_neg (by omega)]
  · intro h1
    rw [validateAndClampSegment_int st en x y w h W H hx hy hW hH]
    rw [if_pos h1]

/-- A valid-but-small rectangle: 5×5 at the origin in a 100×100 frame. -/
def segSmallEx : Segment := { start := 0, «end» := 1, x := 0, y := 0, w := 5, h := 5 }

/-- Counterexample to claim C5 as stated: `segSmallEx` satisfies the
claim's validity condition (x, y ≥ 0, x+w ≤ W, y+h ≤ H) yet
`validateAndClampSegment` excludes it (returns `none`, not the rectangle
unchanged) because its width and height are below the floor of 10. -/
theorem clamp_excludes_small_valid_rect :
    (0 ≤ segSmallEx.x ∧ 0 ≤ segSmallEx.y ∧
      segSmallEx.x + segSmallEx.w ≤ 100 ∧ segSmallEx.y + segSmallEx.h ≤ 100) ∧
    validateAndClampSegment segSmallEx (some 100) (some 100) = none := by
  constructor
  · refine ⟨?_, ?_, ?_, ?_⟩ <;> norm_num [segSmallEx]
  · have h := validateAndClampSegment_int 0 1 0 0 5 5 100 100 (by norm_num) (by norm_num)
      (by norm_num) (by norm_num)
    rw [if_pos (by norm_num)] at h
    have hseg : segSmallEx =
        { start := 0, «end» := 1, x := ((0 : Int) : Rat), y := ((0 : Int) : Rat)
          w := ((5 : Int) : Rat), h := ((5 : Int) : Rat) } := by
      simp [segSmallEx]
    rw [hseg]
    convert h using 2 <;> norm_num
  
/-- Witness for the amended C5: a 50×20 rectangle at (10,10) in a 100×100
frame passes through unchanged, and an overflowing 200-wide rectangle is
shrunk to the frame edge. -/
theorem validateAndClampSegment_spec_witness :
    validateAndClampSegment
        { start := (0 : Rat), «end» := (1 : Rat), x := ((10 : Int) : Rat), y := ((10 : Int) : Rat)
          w := ((50 : Int) : Rat), h := ((20 : Int) : Rat) }
        (some ((100 : Int) : Rat)) (some ((100 : Int) : Rat)) =
      some { start := (0 : Rat), «end» := (1 : Rat), x := ((10 : Int) : Rat), y := ((10 : Int) : Rat)
             w := ((50 : Int) : Rat), h := ((20 : Int) : Rat) } :=
  (validateAndClampSegment_spec 0 1 10 10 50 20 100 100 (by decide) (by decide)
    (by decide) (by decide)).1 (by decide) (by decide) (by decide) (by decide)

/-- Claim C6 (amended): on every timestamp observation with the total
duration known and positive, the pushed progress equals
`10 + round(min(elapsed/duration, 1) * 89)` — the code maps encode
progress onto 89 points, not the claimed 90 — and the value never exceeds
99 (so 100 is never shown before the process exits). -/
theorem ffmpegProgress_spec (currentTime duration : Nat) (hd : 0 < duration) :
    ffmpegProgress currentTime duration =
      10 + jsRoundZ (min ((currentTime : Rat) / (duration : Rat)) 1 * 89) ∧
    ffmpegProgress currentTime duration ≤ 99 := by
  constructor
  · unfold ffmpegProgress
    congr 1
    by_cases hq : (currentTime : Rat) / (duration : Rat) ≤ 1
    · rw [min_eq_left hq]
      apply min_eq_left
      unfold jsRoundZ
      have hlt : (currentTime : Rat) / (duration : Rat) * 89 + 1/2 < 90 := by nlinarith
      have hfl : ⌊(currentTime : Rat) / (duration : Rat) * 89 + 1/2⌋ < (90 : Int) :=
        Int.floor_lt.mpr (by exact_mod_cast hlt)
      omega
    · push_neg at hq
      rw [min_eq_right (le_of_lt hq)]
      have h89 : jsRoundZ ((1 : Rat) * 89) = 89 := by
        unfold jsRoundZ
        norm_num
      rw [h89]
      apply min_eq_right
      apply Int.le_floor.mpr
      have hnn : (0 : Rat) ≤ (currentTime : Rat) / (duration : Rat) := by positivity
      push_cast
      nlinarith
  · unfold ffmpegProgress
    have hmr := min_le_right (jsRoundZ ((currentTime : Rat) / (duration : Rat) * 89)) 89
    omega

/-- Counterexample to claim C6 as stated: at elapsed 9 of duration 10 the
code pushes 90 while the claim's formula (range = the remaining 90% of the
bar, capped at 99) gives 91. -/
theorem ffmpegProgress_ne_claim_formula :
    ffmpegProgress 9 10 = 90 ∧ claimProgressFormula 9 10 = 91 ∧
    ¬ ffmpegProgress 9 10 = claimProgressFormula 9 10 := by
  refine ⟨?_, ?_, ?_⟩ <;>
    norm_num [ffmpegProgress, claimProgressFormula, jsRoundZ, min_def]

/-- Witness for the amended C6 at elapsed 5 of duration 10. -/
theorem ffmpegProgress_spec_witness :
    ffmpegProgress 5 10 =
      10 + jsRoundZ (min (((5 : Nat) : Rat) / ((10 : Nat) : Rat)) 1 * 89) ∧
    ffmpegProgress 5 10 ≤ 99 :=
  ffmpegProgress_spec 5 10 (by decide)

theorem validSegmentsOf_nil (videoWidth videoHeight : Option Rat) :
    validSegmentsOf [] videoWidth videoHeight = [] := rfl

/-- Claim C4: the plan has exactly this shape — no surviving segment (empty
input included) gives exactly the one unconditional fallback operation for
any dimensions; exactly one survivor gives exactly one ungated operation;
two or more survivors give one time-gated operation per surviving segment,
joined in the original input order (`filterMap` preserves order), each
gate naming the segment's own `[start, end]` bounds rendered by
`toFixed(2)`, which always carries exactly two fractional digits (at least
centisecond precision). -/
theorem buildDynamicDelogoFilter_spec (segments : List Segment) (duration : Rat)
    (videoWidth videoHeight : Option Rat) :
    (validSegmentsOf segments videoWidth videoHeight = [] →
      buildDynamicDelogoFilter segments duration videoWidth videoHeight = fallbackDelogo) ∧
    (∀ seg, validSegmentsOf segments videoWidth videoHeight = [seg] →
      buildDynamicDelogoFilter segments duration videoWidth videoHeight =
        delogoPlain seg.x seg.y seg.w seg.h) ∧
    (2 ≤ (validSegmentsOf segments videoWidth videoHeight).length →
      buildDynamicDelogoFilter segments duration videoWidth videoHeight =
        String.intercalate ","
          (List.map delogoGated (validSegmentsOf segments videoWidth videoHeight))) ∧
    (∀ seg : Segment, delogoGated seg =
      delogoPlain seg.x seg.y seg.w seg.h ++ ":enable=\x27between(t," ++ toFixed2 seg.start
        ++ "," ++ toFixed2 seg.«end» ++ ")\x27") ∧
    (∀ q : Rat, ∃ intPart frac : String,
      toFixed2 q = intPart ++ "." ++ frac ∧ frac.length = 2) := by
  refine ⟨?_, ?_, ?_, fun seg => rfl, ?_⟩
  · intro h
    rcases segments with _ | ⟨a, tl⟩
    · rfl
    · simp [buildDynamicDelogoFilter, h]
  · intro seg h
    rcases segments with _ | ⟨a, tl⟩
    · rw [validSegmentsOf_nil] at h
      exact absurd h (by simp)
    · simp [buildDynamicDelogoFilter, h]
  · intro h
    rcases hv : validSegmentsOf segments videoWidth videoHeight with _ | ⟨a, _ | ⟨b, t⟩⟩
    · rw [hv] at h
      simp at h
    · rw [hv] at h
      simp at h
    · rcases segments with _ | ⟨c, tl⟩
      · rw [validSegmentsOf_nil] at hv
        simp at hv
      · simp [buildDynamicDelogoFilter, hv]
  · intro q
    unfold toFixed2
    by_cases hq : q < 0
    · rw [if_pos hq]
      refine ⟨"-" ++ toString ((⌊-q * 100 + 1/2⌋).toNat / 100), pad2 ((⌊-q * 100 + 1/2⌋).toNat % 100),
        by rw [← String.append_assoc, ← String.append_assoc], ?_⟩
      exact pad2_length _ (Nat.mod_lt _ (by norm_num))
    · rw [if_neg hq]
      exact ⟨toString ((⌊q * 100 + 1/2⌋).toNat / 100), pad2 ((⌊q * 100 + 1/2⌋).toNat % 100),
        rfl, pad2_length _ (Nat.mod_lt _ (by norm_num))⟩

/-- First segment of the C4 witness plan (fully inside a 100×100 frame). -/
def segW1 : Segment := { start := 0, «end» := 3, x := 10, y := 10, w := 50, h := 20 }

/-- Second segment of the C4 witness plan. -/
def segW2 : Segment := { start := 5, «end» := 8, x := 20, y := 20, w := 30, h := 30 }

theorem clampW1 : validateAndClampSegment segW1 (some 100) (some 100) = some segW1 := by
  norm_num [validateAndClampSegment, jsRound, jsRoundZ, segW1, max_def]

theorem clampW2 : validateAndClampSegment segW2 (some 100) (some 100) = some segW2 := by
  norm_num [validateAndClampSegment, jsRound, jsRoundZ, segW2, max_def]

theorem validSegmentsOf_pairEx :
    validSegmentsOf [segW1, segW2] (some 100) (some 100) = [segW1, segW2] := by
  simp [validSegmentsOf, clampW1, clampW2]

/-- Witness for C4: the two-segment plan is the comma-joined list of
per-segment gated operations. -/
theorem buildDynamicDelogoFilter_spec_witness :
    buildDynamicDelogoFilter [segW1, segW2] 60 (some 100) (some 100) =
      String.intercalate ","
        (List.map delogoGated (validSegmentsOf [segW1, segW2] (some 100) (some 100))) :=
  (buildDynamicDelogoFilter_spec [segW1, segW2] 60 (some 100) (some 100)).2.2.1
    (by rw [validSegmentsOf_pairEx]; decide)

/-- Claim C8: when the source file does not exist at processing start, the
job is immediately put in `error` status with a message saying the source
is missing, detection never runs, and the engine is never spawned. -/
theorem processWatermarkRemoval_missing_source (env : ProcEnv) (s : MemStorage)
    (job jr : VideoJob) (hget : getVideoJob s job.id = some jr)
    (hfe : env.fileExists = false) :
    (processWatermarkRemoval env s job).ffmpegSpawned = false ∧
    (processWatermarkRemoval env s job).detectionRan = false ∧
    (processWatermarkRemoval env s job).outcome = ProcOutcome.threw "Source file not found" ∧
    getVideoJob (processWatermarkRemoval env s job).store job.id =
      some (applyError jr "Source file not found") ∧
    (applyError jr "Source file not found").status = JobStatus.error ∧
    (applyError jr "Source file not found").errorMessage = some "Source file not found" := by
  have herr := updateVideoJobError_found s job.id jr hget "Source file not found"
  refine ⟨?_, ?_, ?_, ?_, rfl, rfl⟩ <;>
    simp [processWatermarkRemoval, hfe, herr, getVideoJob, mapGet_mapSet_self]

/-- A queued job whose source file will be missing, for the C8 witness. -/
def jobProcEx : VideoJob :=
  { id := "p1", originalFilename := "b.mp4", originalPath := "uploads/b.mp4"
    processedPath := none, fileSize := 2000, format := "mp4"
    status := JobStatus.uploading, progress := 100, errorMessage := none, createdAt := 1 }

/-- Store holding `jobProcEx`, for the C8 witness. -/
def procStoreEx : MemStorage := { videoJobs := [("p1", jobProcEx)], keyframes := [] }

/-- Environment where the source file is absent, for the C8 witness. -/
def envMissingEx : ProcEnv :=
  { fileExists := false, detection := {}, ffmpeg := FfmpegOutcome.exited 0 }

/-- Witness for C8 at the concrete store and environment. -/
theorem processWatermarkRemoval_missing_source_witness :
    (processWatermarkRemoval envMissingEx procStoreEx jobProcEx).ffmpegSpawned = false ∧
    (processWatermarkRemoval envMissingEx procStoreEx jobProcEx).detectionRan = false ∧
    (processWatermarkRemoval envMissingEx procStoreEx jobProcEx).outcome =
      ProcOutcome.threw "Source file not found" ∧
    getVideoJob (processWatermarkRemoval envMissingEx procStoreEx jobProcEx).store jobProcEx.id =
      some (applyError jobProcEx "Source file not found") ∧
    (applyError jobProcEx "Source file not found").status = JobStatus.error ∧
    (applyError jobProcEx "Source file not found").errorMessage = some "Source file not found" :=
  processWatermarkRemoval_missing_source envMissingEx procStoreEx jobProcEx jobProcEx
    (by decide) (by decide)

theorem updateVideoJobStatus_get_self (s : MemStorage) (id : String) (jr : VideoJob)
    (h : getVideoJob s id = some jr) (st : JobStatus) (p : Option Int) :
    getVideoJob (updateVideoJobStatus s id st p).1 id = some (applyStatus jr st p) := by
  rw [updateVideoJobStatus_found s id jr h st p]
  simp [getVideoJob, mapGet_mapSet_self]

theorem updateVideoJobProcessedPath_get_self (s : MemStorage) (id : String) (jr : VideoJob)
    (h : getVideoJob s id = some jr) (pp : String) :
    getVideoJob (updateVideoJobProcessedPath s id pp).1 id = some (applyProcessedPath jr pp) := by
  rw [updateVideoJobProcessedPath_found s id jr h pp]
  simp [getVideoJob, mapGet_mapSet_self]

theorem updateVideoJobError_get_self (s : MemStorage) (id : String) (jr : VideoJob)
    (h : getVideoJob s id = some jr) (msg : String) :
    getVideoJob (updateVideoJobError s id msg).1 id = some (applyError jr msg) := by
  rw [updateVideoJobError_found s id jr h msg]
  simp [getVideoJob, mapGet_mapSet_self]

theorem chooseVideoFilter_of_failed (d : DetectionResult) (h : d.success = some false) :
    chooseVideoFilter d = fallbackDelogo := by
  simp [chooseVideoFilter, h]

/-- Claim C9: every detection failure — spawn error, nonzero exit, empty or
unparseable output — is absorbed into a failure result (`success: false`
with an error text), the filter selection falls through to the fixed
fallback rectangle, the engine is spawned regardless, and with a clean
engine run the job still ends `complete`: detection failures never put the
job in `error` status and never abort the pipeline. -/
theorem detection_failure_falls_back (parseJson : String → Option DetectionResult)
    (out : PyOutcome)
    (hfail : out = PyOutcome.spawnFailed ∨
      (∃ code stdout stderr, out = PyOutcome.exited code stdout stderr ∧ ¬ code = 0) ∨
      (∃ stdout stderr, out = PyOutcome.exited 0 stdout stderr ∧
        (stdout = "" ∨ parseJson stdout = none))) :
    (detectWatermarkPositions parseJson out).success = some false ∧
    ¬ (detectWatermarkPositions parseJson out).error = none ∧
    chooseVideoFilter (detectWatermarkPositions parseJson out) = fallbackDelogo ∧
    (∀ env : ProcEnv, env.fileExists = true →
      env.detection = detectWatermarkPositions parseJson out →
      ∀ (s : MemStorage) (job : VideoJob),
        (processWatermarkRemoval env s job).ffmpegSpawned = true ∧
        (processWatermarkRemoval env s job).videoFilter = some fallbackDelogo) ∧
    (∀ (s : MemStorage) (job jr : VideoJob), getVideoJob s job.id = some jr →
      ∀ envf : ProcEnv, envf.fileExists = true →
        envf.detection = detectWatermarkPositions parseJson out →
        envf.ffmpeg = FfmpegOutcome.exited 0 →
        (processWatermarkRemoval envf s job).outcome = ProcOutcome.resolved ∧
        ∃ jfinal, getVideoJob (processWatermarkRemoval envf s job).store job.id = some jfinal ∧
          jfinal.status = JobStatus.complete) := by
  have hdet : ∃ msg, detectWatermarkPositions parseJson out =
      { success := some false, error := some msg } := by
    rcases hfail with h | ⟨code, so, se, h, hc⟩ | ⟨so, se, h, hso⟩
    · subst h
      exact ⟨"Detection script not available", rfl⟩
    · subst h
      refine ⟨if se ≠ "" then se else "Detection failed", ?_⟩
      simp only [detectWatermarkPositions]
      rw [if_neg (fun hcc => hc hcc.1)]
    · subst h
      rcases hso with hso | hp
      · subst hso
        refine ⟨if se ≠ "" then se else "Detection failed", ?_⟩
        simp [detectWatermarkPositions]
      · by_cases hso2 : so = ""
        · subst hso2
          refine ⟨if se ≠ "" then se else "Detection failed", ?_⟩
          simp [detectWatermarkPositions]
        · refine ⟨"Failed to parse detection result", ?_⟩
          simp [detectWatermarkPositions, hso2, hp]
  obtain ⟨msg, hdet⟩ := hdet
  refine ⟨?_, ?_, ?_, ?_, ?_⟩
  · rw [hdet]
  · rw [hdet]
    simp
  · exact chooseVideoFilter_of_failed _ (by rw [hdet])
  · intro env hfe hd s job
    have hvf : chooseVideoFilter env.detection = fallbackDelogo := by
      rw [hd]
      exact chooseVideoFilter_of_failed _ (by rw [hdet])
    rcases henvf : env.ffmpeg with code | _
    · by_cases hc0 : code = 0 <;>
        simp [processWatermarkRemoval, hfe, henvf, hc0, hvf]
    · simp [processWatermarkRemoval, hfe, henvf, hvf]
  · intro s job jr hget envf hfe hd hff
    refine ⟨?_, ?_⟩
    · simp [processWatermarkRemoval, hfe, hff]
    · refine ⟨applyStatus (applyProcessedPath
          (applyStatus (applyStatus jr JobStatus.processing (some 5)) JobStatus.processing (some 10))
          (outputPathFor job.originalPath)) JobStatus.complete (some 100), ?_, by simp [applyStatus]⟩
      have hchain := updateVideoJobStatus_get_self _ job.id _
        (updateVideoJobProcessedPath_get_self _ job.id _
          (updateVideoJobStatus_get_self _ job.id _
            (updateVideoJobStatus_get_self s job.id jr hget JobStatus.processing (some 5))
            JobStatus.processing (some 10))
          (outputPathFor job.originalPath))
        JobStatus.complete (some 100)
      simp only [processWatermarkRemoval, hfe, hff]
      simpa using hchain

/-- Parse oracle that always fails, for the C9 witness. -/
def parseNoneEx : String → Option DetectionResult := fun _ => none

/-- Witness for C9: a nonzero-exit detection run is absorbed and the
filter selection falls back. -/
theorem detection_failure_falls_back_witness :
    (detectWatermarkPositions parseNoneEx (PyOutcome.exited 1 "" "boom")).success = some false ∧
    chooseVideoFilter (detectWatermarkPositions parseNoneEx (PyOutcome.exited 1 "" "boom")) =
      fallbackDelogo :=
  ⟨(detection_failure_falls_back parseNoneEx (PyOutcome.exited 1 "" "boom")
      (Or.inr (Or.inl ⟨1, "", "boom", rfl, by decide⟩))).1,
   (detection_failure_falls_back parseNoneEx (PyOutcome.exited 1 "" "boom")
      (Or.inr (Or.inl ⟨1, "", "boom", rfl, by decide⟩))).2.2.1⟩

theorem getKeyframesForJob_eq_nil_iff (s : MemStorage) (jobId : String) :
    getKeyframesForJob s jobId = [] ↔
      ∀ kf ∈ mapValues s.keyframes, ¬ kf.jobId = jobId := by
  unfold getKeyframesForJob
  constructor
  · intro h kf hmem hid
    have hperm := List.perm_insertionSort
      (fun a b : WatermarkKeyframe => a.startTime ≤ b.startTime)
      (List.filter (fun kf => kf.jobId = jobId) (mapValues s.keyframes))
    rw [h] at hperm
    have hnil := hperm.symm.eq_nil
    have : kf ∈ List.filter (fun kf => kf.jobId = jobId) (mapValues s.keyframes) :=
      List.mem_filter.mpr ⟨hmem, by simpa using hid⟩
    rw [hnil] at this
    cases this
  · intro h
    have hnil : List.filter (fun kf => kf.jobId = jobId) (mapValues s.keyframes) = [] := by
      apply List.filter_eq_nil.mpr
      intro kf hmem
      simpa using h kf hmem
    rw [hnil]
    rfl

/-- Claim C1: the admission transition snapshots the job's stored
keyframes first, invokes the Detection Adapter exactly when that snapshot
is empty (no stored keyframe belongs to the job), and builds the Filter
Plan from the snapshot whenever it is non-empty (from the detection result
otherwise). The controller is modelled from the spec (see
`startProcessing`); the keyframe lookup is the source `getKeyframesForJob`
unchanged. -/
theorem startProcessing_spec (s : MemStorage) (job : VideoJob) (detection : DetectionResult)
    (duration : Rat) (videoWidth videoHeight : Option Rat) :
    (startProcessing s job detection duration videoWidth videoHeight).snapshot =
      getKeyframesForJob s job.id ∧
    ((startProcessing s job detection duration videoWidth videoHeight).detectionInvoked = true ↔
      getKeyframesForJob s job.id = []) ∧
    ((startProcessing s job detection duration videoWidth videoHeight).detectionInvoked = true ↔
      ∀ kf ∈ mapValues s.keyframes, ¬ kf.jobId = job.id) ∧
    ((startProcessing s job detection duration videoWidth videoHeight).detectionInvoked = false →
      (startProcessing s job detection duration videoWidth videoHeight).plan =
        buildDynamicDelogoFilter
          (List.map keyframeToSegment (getKeyframesForJob s job.id))
          duration videoWidth videoHeight) ∧
    ((startProcessing s job detection duration videoWidth videoHeight).detectionInvoked = true →
      (startProcessing s job detection duration videoWidth videoHeight).plan =
        chooseVideoFilter detection) := by
  by_cases h : (getKeyframesForJob s job.id).isEmpty
  · have hnil : getKeyframesForJob s job.id = [] := by
      simpa [List.isEmpty_iff] using h
    refine ⟨?_, ?_, ?_, ?_, ?_⟩ <;>
      simp [startProcessing, h, hnil, ← getKeyframesForJob_eq_nil_iff]
  · have hne : ¬ getKeyframesForJob s job.id = [] := by
      simpa [List.isEmpty_iff] using h
    refine ⟨?_, ?_, ?_, ?_, ?_⟩ <;>
      simp [startProcessing, h, hne, ← getKeyframesForJob_eq_nil_iff]

/-- A job owning the keyframe `kfEx`, for the C1 witness. -/
def jobKfEx : VideoJob :=
  { id := "j1", originalFilename := "c.mp4", originalPath := "uploads/c.mp4"
    processedPath := none, fileSize := 3000, format := "mp4"
    status := JobStatus.uploading, progress := 100, errorMessage := none, createdAt := 2 }

/-- Witness for C1: with one stored keyframe for the job, detection is not
invoked and the plan is built from the keyframe snapshot. -/
theorem startProcessing_spec_witness :
    (startProcessing kfStoreEx jobKfEx {} 60 none none).plan =
      buildDynamicDelogoFilter
        (List.map keyframeToSegment (getKeyframesForJob kfStoreEx jobKfEx.id)) 60 none none :=
  (startProcessing_spec kfStoreEx jobKfEx {} 60 none none).2.2.2.1 (by decide)

/-- The scheduler safety invariant: never more than the maximum number of
admitted jobs; whenever jobs wait in the queue every slot is taken; and
the enqueue history is exactly the admission history followed by the
pending queue (which makes admission FIFO: the admission log is always a
prefix of the enqueue log). -/
def SchedInv (s : Sched) : Prop :=
  s.activeJobs.length ≤ MAX_CONCURRENT_JOBS ∧
  (¬ s.queue = [] → s.activeJobs.length = MAX_CONCURRENT_JOBS) ∧
  s.enqLog = s.admLog ++ s.queue

theorem schedInv_preserved (s : Sched) (e : SchedEvent) (h : SchedInv s) :
    SchedInv (applySchedEvent s e) := by
  obtain ⟨h1, h2, h3⟩ := h
  cases e with
  | enqueue j =>
    show SchedInv (queueJob s j)
    unfold queueJob processNextInQueue
    by_cases hfull : MAX_CONCURRENT_JOBS ≤ s.activeJobs.length
    · rw [if_pos (Or.inl hfull)]
      exact ⟨h1, fun _ => le_antisymm h1 hfull, by simp [h3]⟩
    · have hqnil : s.queue = [] := by
        by_contra hq
        exact hfull (le_of_eq (h2 hq).symm)
      rw [if_neg (by simp [hfull, hqnil])]
      rcases hq2 : s.queue ++ [j] with _ | ⟨hd, tl⟩
      · simp at hq2
      · rw [hqnil] at hq2
        simp at hq2
        obtain ⟨rfl, rfl⟩ := hq2
        refine ⟨by simpa using Nat.succ_le_of_lt (Nat.lt_of_not_le hfull), ?_, ?_⟩
        · intro hq
          simp at hq
        · have : s.enqLog = s.admLog := by simpa [hqnil] using h3
          simp [this]
  | finish j =>
    show SchedInv (finishJob s j)
    unfold finishJob
    by_cases hmem : j ∈ s.activeJobs
    · rw [if_pos hmem]
      unfold processNextInQueue
      have hlen : (s.activeJobs.erase j).length = s.activeJobs.length - 1 :=
        List.length_erase_of_mem hmem
      rcases hq : s.queue with _ | ⟨hd, tl⟩
      · rw [if_pos (Or.inr (by simp [hq]))]
        refine ⟨by simp [hlen]; omega, ?_, ?_⟩
        · intro hcon
          simp [hq] at hcon
        · simpa [hq] using h3
      · have hsat : s.activeJobs.length = MAX_CONCURRENT_JOBS := h2 (by simp [hq])
        rw [if_neg (by simp [hq, hlen, hsat, MAX_CONCURRENT_JOBS])]
        show SchedInv
          { activeJobs := s.activeJobs.erase j ++ [hd], queue := tl
            admLog := s.admLog ++ [hd], enqLog := s.enqLog }
        refine ⟨?_, ?_, ?_⟩
        · simp only [List.length_append, List.length_cons, List.length_nil, hlen, hsat,
            MAX_CONCURRENT_JOBS]
          try omega
        · intro _
          simp only [List.length_append, List.length_cons, List.length_nil, hlen, hsat,
            MAX_CONCURRENT_JOBS]
          try omega
        · rw [hq] at h3
          simp [h3]
    · rw [if_neg hmem]
      exact ⟨h1, h2, h3⟩

theorem schedInv_init : SchedInv initSched :=
  ⟨by simp [initSched, MAX_CONCURRENT_JOBS], by simp [initSched], by simp [initSched]⟩

theorem schedInv_run (events : List SchedEvent) : SchedInv (runSched events) := by
  have hfold : ∀ (es : List SchedEvent) (s : Sched), SchedInv s →
      SchedInv (List.foldl applySchedEvent s es) := by
    intro es
    induction es with
    | nil => exact fun s hs => hs
    | cons e tl ih => exact fun s hs => ih _ (schedInv_preserved s e hs)
  exact hfold events initSched schedInv_init

/-- Job "a" of the three-job scenario. -/
def jobA : VideoJob :=
  { id := "a", originalFilename := "a.mp4", originalPath := "uploads/a.mp4"
    processedPath := none, fileSize := 1, format := "mp4"
    status := JobStatus.uploading, progress := 100, errorMessage := none, createdAt := 1 }

/-- Job "b" of the three-job scenario. -/
def jobB : VideoJob :=
  { id := "b", originalFilename := "b.mp4", originalPath := "uploads/b.mp4"
    processedPath := none, fileSize := 2, format := "mp4"
    status := JobStatus.uploading, progress := 100, errorMessage := none, createdAt := 2 }

/-- Job "c" of the three-job scenario. -/
def jobC : VideoJob :=
  { id := "c", originalFilename := "c.mp4", originalPath := "uploads/c.mp4"
    processedPath := none, fileSize := 3, format := "mp4"
    status := JobStatus.uploading, progress := 100, errorMessage := none, createdAt := 3 }

/-- Three simultaneous enqueues. -/
def threeEnqueues : List SchedEvent :=
  [SchedEvent.enqueue jobA, SchedEvent.enqueue jobB, SchedEvent.enqueue jobC]

/-- The scheduler state after the three enqueues. -/
def sched3 : Sched :=
  { activeJobs := [jobA, jobB], queue := [jobC]
    admLog := [jobA, jobB], enqLog := [jobA, jobB, jobC] }

/-- Claim C7: in every state reachable by any interleaving of enqueue and
completion events — (1) at most `MAX_CONCURRENT_JOBS` (2) jobs are
admitted; (2) admission is FIFO: the enqueue history is always the
admission history followed by the pending queue, so jobs are admitted in
enqueue order; (3) when jobs wait in the queue, completing any admitted
job immediately admits the queue head, with no external trigger; and in
the concrete three-job scenario, after three simultaneous enqueues jobs
"a" and "b" are admitted and "c" waits, a fourth enqueue cannot admit
"c", only completing "a" or "b" can, and completing "a" does admit "c". -/
theorem queueJob_activeJobs_of_full (s : Sched) (j : VideoJob)
    (h : MAX_CONCURRENT_JOBS ≤ s.activeJobs.length) :
    (queueJob s j).activeJobs = s.activeJobs := by
  unfold queueJob processNextInQueue
  rw [if_pos (Or.inl h)]

theorem scheduler_spec :
    (∀ events, (runSched events).activeJobs.length ≤ MAX_CONCURRENT_JOBS) ∧
    (∀ events, (runSched events).enqLog = (runSched events).admLog ++ (runSched events).queue) ∧
    (∀ events (j hd : VideoJob) (tl : List VideoJob),
      (runSched events).queue = hd :: tl →
      j ∈ (runSched events).activeJobs →
      (applySchedEvent (runSched events) (SchedEvent.finish j)).admLog =
          (runSched events).admLog ++ [hd] ∧
        hd ∈ (applySchedEvent (runSched events) (SchedEvent.finish j)).activeJobs) ∧
    (runSched threeEnqueues).activeJobs = [jobA, jobB] ∧
    (runSched threeEnqueues).queue = [jobC] ∧
    (∀ d : VideoJob,
      ¬ jobC ∈ (applySchedEvent (runSched threeEnqueues) (SchedEvent.enqueue d)).activeJobs) ∧
    (∀ j : VideoJob,
      jobC ∈ (applySchedEvent (runSched threeEnqueues) (SchedEvent.finish j)).activeJobs →
      j = jobA ∨ j = jobB) ∧
    jobC ∈ (runSched (threeEnqueues ++ [SchedEvent.finish jobA])).activeJobs := by
  have hstate : runSched threeEnqueues = sched3 := by decide
  refine ⟨fun events => (schedInv_run events).1,
    fun events => (schedInv_run events).2.2, ?_, ?_, ?_, ?_, ?_, ?_⟩
  · intro events j hd tl hqueue hmem
    have hsat : (runSched events).activeJobs.length = MAX_CONCURRENT_JOBS :=
      (schedInv_run events).2.1 (by simp [hqueue])
    rcases hrs : runSched events with ⟨act, q, adm, enq⟩
    rw [hrs] at hqueue hmem hsat
    subst hqueue
    have hlen : (act.erase j).length = act.length - 1 := List.length_erase_of_mem hmem
    show (finishJob ⟨act, hd :: tl, adm, enq⟩ j).admLog = _ ∧
      _ ∈ (finishJob ⟨act, hd :: tl, adm, enq⟩ j).activeJobs
    unfold finishJob
    rw [if_pos hmem]
    unfold processNextInQueue
    rw [if_neg (by simp [hlen, hsat, MAX_CONCURRENT_JOBS])]
    exact ⟨rfl, by simp⟩
  · rw [hstate]
    simp [sched3]
  · rw [hstate]
    simp [sched3]
  · intro d
    rw [hstate]
    show ¬ jobC ∈ (queueJob sched3 d).activeJobs
    rw [queueJob_activeJobs_of_full sched3 d (by decide)]
    decide
  · intro j hmem
    rw [hstate] at hmem
    change jobC ∈ (finishJob sched3 j).activeJobs at hmem
    unfold finishJob at hmem
    by_cases hj : j ∈ sched3.activeJobs
    · simpa [sched3] using hj
    · rw [if_neg hj] at hmem
      exact absurd hmem (by decide)
  · decide

/-- Witness for C7: in the three-job scenario, finishing job "a" admits
the waiting job "c" immediately. -/
theorem scheduler_spec_witness :
    (applySchedEvent (runSched threeEnqueues) (SchedEvent.finish jobA)).admLog =
      (runSched threeEnqueues).admLog ++ [jobC] ∧
    jobC ∈ (applySchedEvent (runSched threeEnqueues) (SchedEvent.finish jobA)).activeJobs :=
  scheduler_spec.2.2.1 threeEnqueues jobA jobC [] (by decide) (by decide)
